import Mathlib

/-!
Verification of the episodic few-shot evaluation core of FewShotVision
(`classification/src/steps/method_evaluation.py`, the `MethodEvaluation` step).

Feature vectors are modelled as lists of integers; a FeaturePool is an
association list from label to the list of feature vectors of that label,
in key order of the Python dict that `_process_features` builds.
Randomness (the draws of `np.random.choice` and `np.random.permutation`,
and the cell picks of `random_swap_numpy`) is made explicit: each random
draw becomes an argument, and the guarantees numpy documents for the draw
(distinctness, permutation of a range, support-cell bounds) become
hypotheses of the theorems.
-/

namespace FewShotVision

abbrev Feature := List Int

abbrev FeaturePool := List (Nat × List Feature)

/-- Error taxonomy of the evaluation run (spec §7): numpy's ValueError from
an undersized `np.random.choice` population is `insufficientClassesError`,
an out-of-range list index (`perm_ids[i]`, `features[-1]`) is
`insufficientInstancesError` resp. `indexError`, and the
`ValueError('Unknown method')` of `_load_model` is `unknownMethodError`. -/
inductive EvalError where
  | insufficientClassesError
  | insufficientInstancesError
  | indexError
  | unknownMethodError
deriving DecidableEq

instance {ε α : Type} [DecidableEq ε] [DecidableEq α] : DecidableEq (Except ε α) := fun a b =>
  match a, b with
  | .ok a, .ok b =>
      if h : a = b then isTrue (by rw [h]) else isFalse (fun hh => h (Except.ok.inj hh))
  | .error a, .error b =>
      if h : a = b then isTrue (by rw [h]) else isFalse (fun hh => h (Except.error.inj hh))
  | .ok _, .error _ => isFalse (fun hh => Except.noConfusion hh)
  | .error _, .ok _ => isFalse (fun hh => Except.noConfusion hh)

/-! ### FeaturePool Builder (`_process_features`) -/

/-- Loop `while not features[-1].any(): np.delete(features, -1); np.delete(labels, -1)`
of `_process_features`, run on the REVERSED arrays so that the deletion from the
end becomes structural recursion on the head.  `features[-1]` on an emptied
array raises an IndexError, which the loop does not guard against. -/
def trimRev : List Feature → List Nat → Except EvalError (List Feature × List Nat)
  | [], _ => .error .indexError
  | f :: fs, ls =>
    if f.all (fun x => x == 0) then trimRev fs (ls.drop 1)
    else .ok (f :: fs, ls)

/-- Trailing-sentinel trimming of `_process_features`: drop trailing rows whose
feature vector is entirely zero, stopping at the first non-all-zero row. -/
def trimTrailing (fs : List Feature) (ls : List Nat) :
    Except EvalError (List Feature × List Nat) :=
  (trimRev fs.reverse ls.reverse).map (fun p => (p.1.reverse, p.2.reverse))

/-- `np.unique(np.array(labels)).tolist()`: the distinct labels in ascending
sorted order. -/
def npUnique (ls : List Nat) : List Nat :=
  List.insertionSort (fun a b => a ≤ b) ls.dedup

/-- Grouping loop of `_process_features`: for each key (in `np.unique` order)
collect the features whose label equals the key, in index order. -/
def groupByLabel (fs : List Feature) (ls : List Nat) (keys : List Nat) : FeaturePool :=
  keys.map (fun k => (k, ((ls.zip fs).filter (fun p => p.1 == k)).map Prod.snd))

/-- `_process_features`: trim trailing all-zero rows, then build the
label-to-features dict whose keys come from `np.unique`. -/
def processFeatures (fs : List Feature) (ls : List Nat) : Except EvalError FeaturePool :=
  (trimTrailing fs ls).map (fun p => groupByLabel p.1 p.2 (npUnique p.2))

/-- Order of first occurrence of each distinct label in the input sequence
(what an insertion-ordered grouping would produce). -/
def firstOccurrenceKeys (ls : List Nat) : List Nat := ls.dedup

/-! ### Episode Sampler (`_set_classification_task`) -/

def poolKeys (pool : FeaturePool) : List Nat := pool.map Prod.fst

/-- `features_per_label[cl]` lookup (first matching key of the dict). -/
def lookupPool (pool : FeaturePool) (cl : Nat) : List Feature :=
  (pool.find? (fun p => p.1 == cl)).elim [] Prod.snd

/-- `np.random.choice(population, size=size, replace=False)` with the drawn
result passed in explicitly: numpy raises a ValueError when the population is
smaller than the requested size, and otherwise returns the draw. -/
def npChoiceNoReplace (population : List Nat) (size : Nat) (draw : List Nat) :
    Except EvalError (List Nat) :=
  if population.length < size then .error .insufficientClassesError else .ok draw

/-- Indices `perm_ids[0], ..., perm_ids[k-1]` used by the per-class selection
comprehension of `_set_classification_task`. -/
def chosenIdxs (perm : List Nat) (k : Nat) : List Nat :=
  (List.range k).map (fun i => perm.getD i 0)

/-- One class row `[np.squeeze(img_feat[perm_ids[i]]) for i in range(n_shot + n_query)]`:
`perm_ids[i]` raises IndexError when the class has fewer than `k` instances
(`np.squeeze` is the identity on a 1-axis feature vector). -/
def sampleClassRowE (imgFeat : List Feature) (perm : List Nat) (k : Nat) :
    Except EvalError (List Feature) :=
  if perm.length < k then .error .insufficientInstancesError
  else .ok ((chosenIdxs perm k).map (fun j => imgFeat.getD j []))

/-- The row a successful per-class selection produces. -/
def sampledRow (pool : FeaturePool) (k : Nat) (p : Nat × List Nat) : List Feature :=
  (chosenIdxs p.2 k).map (fun j => (lookupPool pool p.1).getD j [])

/-- The `for cl in select_class` loop of `_set_classification_task`, with the
per-class permutations passed in explicitly, zipped with the selected classes. -/
def sampleRows (pool : FeaturePool) (k : Nat) :
    List (Nat × List Nat) → Except EvalError (List (List Feature))
  | [] => .ok []
  | p :: rest =>
    match sampleClassRowE (lookupPool pool p.1) p.2 k with
    | .error e => .error e
    | .ok row =>
      match sampleRows pool k rest with
      | .error e => .error e
      | .ok rows => .ok (row :: rows)

/-! ### Label Noise Injector (`random_swap_numpy`) -/

def getCell (z : List (List Feature)) (c p : Nat) : Feature :=
  (z.getD c []).getD p []

def setCell (z : List (List Feature)) (c p : Nat) (v : Feature) : List (List Feature) :=
  z.set c ((z.getD c []).set p v)

/-- One pairwise exchange of the feature content of two cells of the stacked
episode structure. -/
def swapOnce (z : List (List Feature)) (sw : (Nat × Nat) × (Nat × Nat)) :
    List (List Feature) :=
  let v1 := getCell z sw.1.1 sw.1.2
  let v2 := getCell z sw.2.1 sw.2.2
  setCell (setCell z sw.1.1 sw.1.2 v2) sw.2.1 sw.2.2 v1

/-- Modelled from the spec: `random_swap_numpy` lives in `utils/utils.py`,
which is not part of the sources at hand; spec §4.3 specifies it as exactly
`n_swaps` independent pairwise exchanges of feature content between two
randomly chosen distinct (class, support-position) cells, where only
positions of index `< n_shot` within a class slice are eligible.  The
internal random draws are made explicit as the `swaps` list; the eligibility
guarantee of the draw (`position < n_shot`, class index in range) becomes a
hypothesis of the theorems that need it. -/
def randomSwapNumpy (z : List (List Feature)) (swaps : List ((Nat × Nat) × (Nat × Nat))) :
    List (List Feature) :=
  swaps.foldl swapOnce z

/-- `_set_classification_task`: choose `test_n_way` distinct classes, select
`n_shot + n_query` instances of each via a fresh permutation, stack, and apply
`random_swap_numpy`. -/
def setClassificationTaskE (pool : FeaturePool) (n_way n_shot n_query : Nat)
    (draw : List Nat) (perms : List (List Nat))
    (swaps : List ((Nat × Nat) × (Nat × Nat))) :
    Except EvalError (List (List Feature)) :=
  match npChoiceNoReplace (poolKeys pool) n_way draw with
  | .error e => .error e
  | .ok select =>
    match sampleRows pool (n_shot + n_query) (select.zip perms) with
    | .error e => .error e
    | .ok rows => .ok (randomSwapNumpy rows swaps)

/-! ### Per-episode scoring (`_feature_evaluation`) -/

/-- `np.repeat(range(test_n_way), n_query)`: class index `i` repeated
`n_query` times, for `i = 0, ..., n_way - 1` in order. -/
def npRepeat (n_way n_query : Nat) : List Nat :=
  (List.range n_way).flatMap (fun i => List.replicate n_query i)

/-- `np.mean(pred == y) * 100` of `_feature_evaluation`, with
`y = np.repeat(range(test_n_way), n_query)`: the matching positions counted
over the element-wise comparison, divided by its length, times 100. -/
def featureEvalAcc (pred : List Nat) (n_way n_query : Nat) : ℚ :=
  let y := npRepeat n_way n_query
  (((pred.zip y).countP (fun p => p.1 == p.2) : ℕ) : ℚ) / ((y.length : ℕ) : ℚ) * 100

/-! ### Evaluation loop and persistence (`apply`, `_load_model`) -/

/-- The enumerated method identifiers `_load_model` recognizes. -/
def knownMethods : List String :=
  ["baseline", "baseline++", "protonet", "matchingnet", "relationnet",
   "relationnet_softmax", "maml", "maml_approx"]

/-- The trained-model state handed to `apply`: an opaque parameter set and the
training epoch used for the result-log line. -/
structure ModelState where
  state : List ℚ
  epoch : Nat

/-- Parameter set of the model `_load_model` returns: an unrecognized method
raises `ValueError('Unknown method')`; for `baseline`/`baseline++` the
checkpoint parameters are NOT loaded (the model keeps its fresh
construction-time parameters `initParams`); every other method loads
`model_state['state']`. -/
def loadModelParams (method : String) (ms : ModelState) (initParams : List ℚ) :
    Except EvalError (List ℚ) :=
  if method ∈ knownMethods then
    if method ∈ ["baseline", "baseline++"] then .ok initParams
    else .ok ms.state
  else .error .unknownMethodError

/-- Arithmetic mean, `np.mean`. -/
def qmean (xs : List ℚ) : ℚ := xs.sum / (xs.length : ℚ)

/-- The `for i in range(n_iter)` loop of `apply`: episodes run in ascending
order and the first raising episode aborts the loop. -/
def evalLoop (ep : Nat → Except EvalError ℚ) : Nat → Except EvalError (List ℚ)
  | 0 => .ok []
  | n + 1 =>
    match evalLoop ep n with
    | .error e => .error e
    | .ok xs =>
      match ep n with
      | .error e => .error e
      | .ok a => .ok (xs ++ [a])

/-- Observable outcome of one `apply` call: the returned value (or the raised
error) together with the records appended to `results.txt`.  A log record is
abstracted to its data content: the checkpoint epoch and the per-episode
accuracy sequence the summary line is computed from. -/
structure ApplyTrace where
  result : Except EvalError ℚ
  log : List (Nat × List ℚ)
deriving DecidableEq

/-- The feature-based branch of `apply` (every method except maml/maml_approx):
load the model, build the FeaturePool, run `n_iter` episodes, aggregate, and
only then append one record to `results.txt`.  `classify` abstracts
`_feature_evaluation`'s classifier call: from the loaded parameters, the pool
and the iteration index to the episode accuracy (or the raised error). -/
def applyE (method : String) (ms : ModelState) (initParams : List ℚ)
    (fs : List Feature) (ls : List Nat)
    (classify : List ℚ → FeaturePool → Nat → Except EvalError ℚ)
    (n_iter : Nat) : ApplyTrace :=
  match loadModelParams method ms initParams with
  | .error e => ⟨.error e, []⟩
  | .ok params =>
    match processFeatures fs ls with
    | .error e => ⟨.error e, []⟩
    | .ok pool =>
      match evalLoop (classify params pool) n_iter with
      | .error e => ⟨.error e, []⟩
      | .ok accs => ⟨.ok (qmean accs), [(ms.epoch, accs)]⟩

/-! ### Aggregation statistics (`_confidence_interval`, `np.std`) -/

/-- Population standard deviation `np.std` (ddof = 0). -/
noncomputable def popStd (xs : List ℝ) : ℝ :=
  Real.sqrt (((xs.map (fun x => (x - xs.sum / (xs.length : ℝ)) ^ 2)).sum) / (xs.length : ℝ))

/-- `_confidence_interval`: `1.96 * std / np.sqrt(n_iter)`. -/
noncomputable def confidenceInterval (std : ℝ) (n_iter : Nat) : ℝ :=
  1.96 * std / Real.sqrt (n_iter : ℝ)

/-! ### Helper lemmas -/

lemma getD_set_ne {α : Type} (l : List α) (i j : Nat) (a d : α) (h : i ≠ j) :
    (l.set i a).getD j d = l.getD j d := by
  simp [List.getD_eq_getElem?_getD, List.getElem?_set_ne h]

lemma getD_set_self {α : Type} (l : List α) (i : Nat) (a d : α) (h : i < l.length) :
    (l.set i a).getD i d = a := by
  simp [List.getD_eq_getElem?_getD, List.getElem?_set_eq_of_lt a h]

lemma popStd_nonneg (xs : List ℝ) : 0 ≤ popStd xs := Real.sqrt_nonneg _

lemma poolKeys_groupByLabel (fs : List Feature) (ls keys : List Nat) :
    poolKeys (groupByLabel fs ls keys) = keys := by
  simp [poolKeys, groupByLabel, List.map_map, Function.comp_def]

lemma npUnique_sorted (ls : List Nat) : List.Sorted (fun a b => a < b) (npUnique ls) := by
  have hs : List.Sorted (fun a b => a ≤ b) (npUnique ls) :=
    List.sorted_insertionSort _ _
  have hn : (npUnique ls).Nodup :=
    (List.perm_insertionSort _ _).nodup_iff.mpr (List.nodup_dedup ls)
  exact hs.lt_of_le hn

lemma evalLoop_isOk_iff (ep : Nat → Except EvalError ℚ) (n : Nat) :
    (evalLoop ep n).isOk = true ↔ ∀ i < n, (ep i).isOk = true := by
  induction n with
  | zero =>
    constructor
    · intro _ i hi; exact absurd hi (Nat.not_lt_zero i)
    · intro _; rfl
  | succ n ih =>
    unfold evalLoop
    cases h : evalLoop ep n with
    | error e =>
      rw [h] at ih
      constructor
      · intro hfalse; exact Bool.noConfusion hfalse
      · intro hall
        have hok : (Except.error e : Except EvalError (List ℚ)).isOk = true :=
          ih.mpr (fun i hi => hall i (Nat.lt_succ_of_lt hi))
        exact Bool.noConfusion hok
    | ok xs =>
      rw [h] at ih
      cases h2 : ep n with
      | error e =>
        constructor
        · intro hfalse; exact Bool.noConfusion hfalse
        · intro hall
          have hok := hall n (Nat.lt_succ_self n)
          rw [h2] at hok
          exact Bool.noConfusion hok
      | ok a =>
        constructor
        · intro _ i hi
          rcases Nat.lt_succ_iff_lt_or_eq.mp hi with hlt | heq
          · exact (ih.mp rfl) i hlt
          · subst heq; rw [h2]; rfl
        · intro _; rfl

lemma evalLoop_error_of_fail (ep : Nat → Except EvalError ℚ) (n : Nat)
    (h : ∃ i < n, (ep i).isOk = false) :
    ∃ e, evalLoop ep n = .error e := by
  obtain ⟨i, hi, hfail⟩ := h
  have hnot : ¬ (evalLoop ep n).isOk = true := by
    rw [evalLoop_isOk_iff]
    intro hall
    rw [hall i hi] at hfail
    exact Bool.noConfusion hfail
  cases hl : evalLoop ep n with
  | error e => exact ⟨e, rfl⟩
  | ok xs => rw [hl] at hnot; exact absurd rfl hnot

lemma length_setCell (z : List (List Feature)) (c p : Nat) (v : Feature) :
    (setCell z c p v).length = z.length := by
  simp [setCell]

lemma rowlen_setCell (z : List (List Feature)) (c p : Nat) (v : Feature) (c' : Nat) :
    ((setCell z c p v).getD c' []).length = (z.getD c' []).length := by
  unfold setCell
  by_cases h : c = c'
  · subst h
    by_cases hc : c < z.length
    · rw [getD_set_self _ _ _ _ hc, List.length_set]
    · rw [List.set_eq_of_length_le (Nat.le_of_not_lt hc)]
  · rw [getD_set_ne _ _ _ _ _ h]

lemma getCell_setCell_ne (z : List (List Feature)) (c' p' : Nat) (v : Feature)
    (c p : Nat) (h : ¬(c' = c ∧ p' = p)) :
    getCell (setCell z c' p' v) c p = getCell z c p := by
  unfold getCell setCell
  by_cases hc : c' = c
  · subst hc
    have hp : p' ≠ p := fun hp => h ⟨rfl, hp⟩
    by_cases hlen : c' < z.length
    · rw [getD_set_self _ _ _ _ hlen, getD_set_ne _ _ _ _ _ hp]
    · rw [List.set_eq_of_length_le (Nat.le_of_not_lt hlen)]
  · rw [getD_set_ne _ _ _ _ _ hc]

lemma length_swapOnce (z : List (List Feature)) (sw : (Nat × Nat) × (Nat × Nat)) :
    (swapOnce z sw).length = z.length := by
  simp [swapOnce, length_setCell]

lemma rowlen_swapOnce (z : List (List Feature)) (sw : (Nat × Nat) × (Nat × Nat))
    (c : Nat) : ((swapOnce z sw).getD c []).length = (z.getD c []).length := by
  simp only [swapOnce]
  rw [rowlen_setCell, rowlen_setCell]

lemma getCell_swapOnce_untouched (z : List (List Feature))
    (sw : (Nat × Nat) × (Nat × Nat)) (c p : Nat)
    (h1 : ¬(sw.1.1 = c ∧ sw.1.2 = p)) (h2 : ¬(sw.2.1 = c ∧ sw.2.2 = p)) :
    getCell (swapOnce z sw) c p = getCell z c p := by
  unfold swapOnce
  rw [getCell_setCell_ne _ _ _ _ _ _ h2, getCell_setCell_ne _ _ _ _ _ _ h1]

lemma getD_append_left {α : Type} (l₁ l₂ : List α) (j : Nat) (d : α)
    (h : j < l₁.length) : (l₁ ++ l₂).getD j d = l₁.getD j d := by
  simp [List.getD_eq_getElem?_getD, List.getElem?_append_left h]

lemma getD_append_right {α : Type} (l₁ l₂ : List α) (j : Nat) (d : α)
    (h : l₁.length ≤ j) : (l₁ ++ l₂).getD j d = l₂.getD (j - l₁.length) d := by
  simp [List.getD_eq_getElem?_getD, List.getElem?_append_right h]

lemma npRepeat_succ (n q : Nat) :
    npRepeat (n + 1) q = npRepeat n q ++ List.replicate q n := by
  unfold npRepeat
  rw [List.range_succ, List.flatMap_append]
  simp

lemma npRepeat_length (n q : Nat) : (npRepeat n q).length = n * q := by
  induction n with
  | zero => simp [npRepeat]
  | succ n ih =>
    rw [npRepeat_succ, List.length_append, ih, List.length_replicate, Nat.succ_mul]

lemma npRepeat_getD (n q j : Nat) (h : j < n * q) : (npRepeat n q).getD j 0 = j / q := by
  induction n with
  | zero => exact absurd h (by simp)
  | succ n ih =>
    rw [npRepeat_succ]
    by_cases hj : j < n * q
    · rw [getD_append_left _ _ _ _ (by rw [npRepeat_length]; exact hj)]
      exact ih hj
    · have h1 : n * q ≤ j := Nat.le_of_not_lt hj
      rw [getD_append_right _ _ _ _ (by rw [npRepeat_length]; exact h1), npRepeat_length]
      have h2 : j < (n + 1) * q := h
      have hlt : j - n * q < q := by
        have := Nat.succ_mul n q ▸ h2
        omega
      rw [List.getD_eq_getElem?_getD]
      rw [List.getElem?_replicate_of_lt hlt]
      exact (Nat.div_eq_of_lt_le h1 h2).symm

lemma countP_zip_eq_countP_range (pred y : List Nat) (h : pred.length = y.length) :
    (pred.zip y).countP (fun p => p.1 == p.2)
      = (List.range y.length).countP (fun j => pred.getD j 0 == y.getD j 0) := by
  induction y generalizing pred with
  | nil =>
    cases pred with
    | nil => rfl
    | cons a as => exact absurd h (by simp)
  | cons b bs ih =>
    cases pred with
    | nil => exact absurd h (by simp)
    | cons a as =>
      have hlen : as.length = bs.length := by simpa using h
      rw [List.zip_cons_cons, List.countP_cons, List.length_cons,
        List.range_succ_eq_map, List.countP_cons, List.countP_map]
      have hcomp :
          (List.range bs.length).countP
              ((fun j => (a :: as).getD j 0 == (b :: bs).getD j 0) ∘ Nat.succ)
            = (List.range bs.length).countP (fun j => as.getD j 0 == bs.getD j 0) := by
        apply List.countP_congr
        intro j _
        simp [Function.comp, List.getD_cons_succ]
      rw [hcomp, ih as hlen]
      simp [List.getD_cons_zero]

lemma chosenIdxs_length (perm : List Nat) (k : Nat) : (chosenIdxs perm k).length = k := by
  simp [chosenIdxs]

lemma chosenIdxs_eq_take (perm : List Nat) (k : Nat) (h : k ≤ perm.length) :
    chosenIdxs perm k = perm.take k := by
  apply List.ext_getElem
  · rw [chosenIdxs_length, List.length_take]
    exact (Nat.min_eq_left h).symm
  · intro i h1 h2
    rw [chosenIdxs_length] at h1
    have hip : i < perm.length := Nat.lt_of_lt_of_le h1 h
    simp [chosenIdxs, List.getD_eq_getElem?_getD, List.getElem?_eq_getElem hip,
      List.getElem_take]

lemma chosenIdxs_nodup (perm : List Nat) (k : Nat) (hn : perm.Nodup)
    (h : k ≤ perm.length) : (chosenIdxs perm k).Nodup := by
  rw [chosenIdxs_eq_take perm k h]
  exact (List.take_sublist k perm).nodup hn

lemma chosenIdxs_mem (perm : List Nat) (k j : Nat) (h : k ≤ perm.length)
    (hj : j ∈ chosenIdxs perm k) : j ∈ perm := by
  rw [chosenIdxs_eq_take perm k h] at hj
  exact (List.take_sublist k perm).subset hj

lemma sampleRows_ok (pool : FeaturePool) (k : Nat) (l : List (Nat × List Nat))
    (h : ∀ p ∈ l, k ≤ p.2.length) :
    sampleRows pool k l = .ok (l.map (sampledRow pool k)) := by
  induction l with
  | nil => rfl
  | cons p rest ih =>
    have hp := h p (List.mem_cons_self _ _)
    have hrow : sampleClassRowE (lookupPool pool p.1) p.2 k = .ok (sampledRow pool k p) := by
      unfold sampleClassRowE sampledRow
      rw [if_neg (Nat.not_lt.mpr hp)]
    unfold sampleRows
    rw [hrow, ih (fun q hq => h q (List.mem_cons_of_mem _ hq))]
    rfl

/-- Shape invariant on a stacked episode: every class row has `k` cells and
every cell is a feature vector of dimension `dim`. -/
def EpisodeShape (k dim : Nat) (z : List (List Feature)) : Prop :=
  ∀ row ∈ z, row.length = k ∧ ∀ v ∈ row, v.length = dim

lemma shape_setCell (z : List (List Feature)) (c p : Nat) (v : Feature)
    (k dim : Nat) (hz : EpisodeShape k dim z) (hv : v.length = dim) :
    EpisodeShape k dim (setCell z c p v) := by
  by_cases hc : c < z.length
  · intro row hrow
    rcases List.mem_or_eq_of_mem_set hrow with hmem | heq
    · exact hz row hmem
    · subst heq
      have hmem : z.getD c [] ∈ z := by
        rw [List.getD_eq_getElem _ _ hc]
        exact List.getElem_mem hc
      obtain ⟨hlen, hall⟩ := hz _ hmem
      refine ⟨by rw [List.length_set]; exact hlen, ?_⟩
      intro w hw
      rcases List.mem_or_eq_of_mem_set hw with h2 | h2
      · exact hall w h2
      · subst h2; exact hv
  · have hid : setCell z c p v = z := by
      unfold setCell
      exact List.set_eq_of_length_le (Nat.le_of_not_lt hc)
    rw [hid]
    exact hz

lemma getCell_length (z : List (List Feature)) (c p k dim : Nat)
    (hz : EpisodeShape k dim z) (hc : c < z.length) (hp : p < k) :
    (getCell z c p).length = dim := by
  unfold getCell
  have hmem : z.getD c [] ∈ z := by
    rw [List.getD_eq_getElem _ _ hc]
    exact List.getElem_mem hc
  obtain ⟨hlen, hall⟩ := hz _ hmem
  have hplen : p < (z.getD c []).length := by rw [hlen]; exact hp
  rw [List.getD_eq_getElem _ _ hplen]
  exact hall _ (List.getElem_mem hplen)

lemma shape_swapOnce (z : List (List Feature)) (sw : (Nat × Nat) × (Nat × Nat))
    (k dim : Nat) (hz : EpisodeShape k dim z)
    (hc1 : sw.1.1 < z.length) (hp1 : sw.1.2 < k)
    (hc2 : sw.2.1 < z.length) (hp2 : sw.2.2 < k) :
    EpisodeShape k dim (swapOnce z sw) := by
  have hv1 : (getCell z sw.1.1 sw.1.2).length = dim := getCell_length z _ _ k dim hz hc1 hp1
  have hv2 : (getCell z sw.2.1 sw.2.2).length = dim := getCell_length z _ _ k dim hz hc2 hp2
  simp only [swapOnce]
  exact shape_setCell _ _ _ _ k dim (shape_setCell z _ _ _ k dim hz hv2) hv1

lemma shape_randomSwap (z : List (List Feature))
    (swaps : List ((Nat × Nat) × (Nat × Nat))) (k dim : Nat)
    (hz : EpisodeShape k dim z)
    (hs : ∀ sw ∈ swaps, sw.1.1 < z.length ∧ sw.1.2 < k ∧ sw.2.1 < z.length ∧ sw.2.2 < k) :
    EpisodeShape k dim (randomSwapNumpy z swaps) := by
  induction swaps generalizing z with
  | nil => exact hz
  | cons sw rest ih =>
    have hsw := hs sw (List.mem_cons_self _ _)
    have step : randomSwapNumpy z (sw :: rest) = randomSwapNumpy (swapOnce z sw) rest := rfl
    rw [step]
    apply ih (swapOnce z sw)
      (shape_swapOnce z sw k dim hz hsw.1 hsw.2.1 hsw.2.2.1 hsw.2.2.2)
    intro s hsmem
    have := hs s (List.mem_cons_of_mem _ hsmem)
    rwa [length_swapOnce]

lemma length_randomSwap (z : List (List Feature))
    (swaps : List ((Nat × Nat) × (Nat × Nat))) :
    (randomSwapNumpy z swaps).length = z.length := by
  induction swaps generalizing z with
  | nil => rfl
  | cons sw rest ih =>
    have step : randomSwapNumpy z (sw :: rest) = randomSwapNumpy (swapOnce z sw) rest := rfl
    rw [step, ih, length_swapOnce]

/-! ### Claim theorems -/

/-- C4: the reported 95% confidence half-width equals
`1.96 * std / sqrt(n_iter)` where `std` is the population standard deviation
of the per-episode accuracies, and for a fixed standard deviation it is
monotonically non-increasing as `n_iter` increases. -/
theorem confidence_halfwidth_formula_antitone (accs : List ℝ) (n m : Nat)
    (h1 : 1 ≤ n) (h2 : n ≤ m) :
    confidenceInterval (popStd accs) n = 1.96 * popStd accs / Real.sqrt (n : ℝ) ∧
    confidenceInterval (popStd accs) m ≤ confidenceInterval (popStd accs) n := by
  refine ⟨rfl, ?_⟩
  unfold confidenceInterval
  apply div_le_div_of_nonneg_left
  · exact mul_nonneg (by norm_num) (popStd_nonneg accs)
  · have hn : (0 : ℝ) < (n : ℝ) := by exact_mod_cast Nat.lt_of_lt_of_le Nat.zero_lt_one h1
    exact Real.sqrt_pos.mpr hn
  · exact Real.sqrt_le_sqrt (by exact_mod_cast h2)

/-- Witness for C4 at `accs = [2, 3]`, `n = 1`, `m = 4`. -/
theorem confidence_halfwidth_formula_antitone_witness :
    (1 : Nat) ≤ 1 ∧ (1 : Nat) ≤ 4 ∧
    (confidenceInterval (popStd [2, 3]) 1
        = 1.96 * popStd [2, 3] / Real.sqrt ((1 : Nat) : ℝ) ∧
      confidenceInterval (popStd [2, 3]) 4 ≤ confidenceInterval (popStd [2, 3]) 1) :=
  ⟨by norm_num, by norm_num,
    confidence_halfwidth_formula_antitone [2, 3] 1 4 (by norm_num) (by norm_num)⟩

/-- C6 counterexample: on labels `[2, 1]` (features non-zero, so nothing is
trimmed), the FeaturePool keys are NOT in insertion order of first occurrence:
`np.unique` sorts, so the keys come out `[1, 2]`, not `[2, 1]`. -/
theorem processFeatures_keys_not_first_occurrence :
    (processFeatures [[1], [1]] [2, 1]).map poolKeys
      ≠ .ok (firstOccurrenceKeys [2, 1]) := by decide

/-- C6 (amended): the FeaturePool Builder, after trimming trailing all-zero
rows, builds a mapping whose keys appear in ascending sorted order of the
distinct remaining labels (the order of `np.unique`). -/
theorem processFeatures_keys_sorted (fs : List Feature) (ls : List Nat)
    (pool : FeaturePool) (h : processFeatures fs ls = .ok pool) :
    List.Sorted (fun a b => a < b) (poolKeys pool) := by
  unfold processFeatures at h
  cases htr : trimTrailing fs ls with
  | error e => rw [htr] at h; exact absurd h (by simp [Except.map])
  | ok p =>
    rw [htr] at h
    simp only [Except.map] at h
    have hpool : groupByLabel p.1 p.2 (npUnique p.2) = pool := Except.ok.inj h
    rw [← hpool, poolKeys_groupByLabel]
    exact npUnique_sorted p.2

/-- Witness for C6 (amended) at `features = [[1], [1]]`, `labels = [2, 1]`. -/
theorem processFeatures_keys_sorted_witness :
    processFeatures [[1], [1]] [2, 1] = .ok [(1, [[1]]), (2, [[1]])] ∧
    List.Sorted (fun a b => a < b) (poolKeys [(1, [[1]]), (2, [[1]])]) :=
  ⟨by decide,
    processFeatures_keys_sorted [[1], [1]] [2, 1] [(1, [[1]]), (2, [[1]])] (by decide)⟩

/-- C9: on an input all of whose rows are entirely zero, the trimming loop of
`_process_features` empties the array and then evaluates `features[-1]` on the
empty array, raising an IndexError instead of returning an empty FeaturePool. -/
theorem all_zero_rows_raise_index_error :
    processFeatures [[0, 0], [0, 0]] [5, 7] = .error .indexError := by decide

/-- C7: a FeaturePool with fewer distinct classes than `n_way` makes episode
sampling fail at the class-choice step (`np.random.choice` without
replacement over the pool keys), the `InsufficientClassesError` of the spec's
taxonomy. -/
theorem insufficient_classes_fails (pool : FeaturePool)
    (n_way n_shot n_query : Nat) (draw : List Nat) (perms : List (List Nat))
    (swaps : List ((Nat × Nat) × (Nat × Nat)))
    (h : (poolKeys pool).length < n_way) :
    setClassificationTaskE pool n_way n_shot n_query draw perms swaps
      = .error .insufficientClassesError := by
  unfold setClassificationTaskE npChoiceNoReplace
  rw [if_pos h]

/-- Witness for C7: a pool with one class, `n_way = 2`. -/
theorem insufficient_classes_fails_witness :
    (poolKeys [(0, [[1]])]).length < 2 ∧
    setClassificationTaskE [(0, [[1]])] 2 1 1 [] [] []
      = .error .insufficientClassesError :=
  ⟨by decide, insufficient_classes_fails [(0, [[1]])] 2 1 1 [] [] [] (by decide)⟩

/-- C8: an unrecognized method identifier makes `apply` fail with the
`ValueError('Unknown method')` of `_load_model` before the FeaturePool is
built and before any episode runs: the whole trace is the constant error
trace, independent of the features, labels and classifier. -/
theorem unknown_method_fails_before_pool_and_episodes (method : String)
    (ms : ModelState) (initParams : List ℚ) (fs : List Feature) (ls : List Nat)
    (classify : List ℚ → FeaturePool → Nat → Except EvalError ℚ) (n_iter : Nat)
    (h : method ∉ knownMethods) :
    applyE method ms initParams fs ls classify n_iter
      = ⟨.error .unknownMethodError, []⟩ := by
  unfold applyE
  rw [show loadModelParams method ms initParams = .error .unknownMethodError from by
    unfold loadModelParams; rw [if_neg h]]

/-- Witness for C8 at the unrecognized method name `"foo"`. -/
theorem unknown_method_fails_before_pool_and_episodes_witness :
    "foo" ∉ knownMethods ∧
    applyE "foo" ⟨[1], 2⟩ [0] [[1]] [0] (fun _ _ _ => .ok 50) 3
      = ⟨.error .unknownMethodError, []⟩ :=
  ⟨by decide,
    unknown_method_fails_before_pool_and_episodes "foo" ⟨[1], 2⟩ [0] [[1]] [0]
      (fun _ _ _ => .ok 50) 3 (by decide)⟩

/-- C1: for a FeaturePool with at least `n_way` classes, each holding at
least `n_shot + n_query` feature vectors of dimension `dim`, every episode
`_set_classification_task` returns is a 3-axis structure of shape
`(n_way, n_shot + n_query, dim)` built from `n_way` distinct classes
(`np.random.choice` draws without replacement), with exactly
`n_shot + n_query` instances per selected class and no instance of a class
used twice (the per-class indices are a duplicate-free prefix of a fresh
permutation). -/
theorem sampled_episode_shape_and_no_reuse (pool : FeaturePool)
    (n_way n_shot n_query dim : Nat) (draw : List Nat) (perms : List (List Nat))
    (swaps : List ((Nat × Nat) × (Nat × Nat)))
    (hpool : n_way ≤ (poolKeys pool).length)
    (hdraw_len : draw.length = n_way)
    (hdraw_nodup : draw.Nodup)
    (_hdraw_mem : ∀ c ∈ draw, c ∈ poolKeys pool)
    (hperms_len : perms.length = n_way)
    (hperm : ∀ p ∈ draw.zip perms, p.2.Perm (List.range (lookupPool pool p.1).length))
    (hcount : ∀ p ∈ draw.zip perms, n_shot + n_query ≤ (lookupPool pool p.1).length)
    (hdim : ∀ p ∈ draw.zip perms, ∀ v ∈ lookupPool pool p.1, v.length = dim)
    (hswaps : ∀ sw ∈ swaps,
      sw.1.1 < n_way ∧ sw.1.2 < n_shot ∧ sw.2.1 < n_way ∧ sw.2.2 < n_shot) :
    setClassificationTaskE pool n_way n_shot n_query draw perms swaps
        = .ok (randomSwapNumpy
            ((draw.zip perms).map (sampledRow pool (n_shot + n_query))) swaps) ∧
    (randomSwapNumpy ((draw.zip perms).map (sampledRow pool (n_shot + n_query)))
        swaps).length = n_way ∧
    (∀ row ∈ randomSwapNumpy ((draw.zip perms).map (sampledRow pool (n_shot + n_query)))
        swaps, row.length = n_shot + n_query ∧ ∀ v ∈ row, v.length = dim) ∧
    draw.Nodup ∧ draw.length = n_way ∧
    (∀ p ∈ draw.zip perms, (chosenIdxs p.2 (n_shot + n_query)).Nodup) := by
  have hklen : ∀ p ∈ draw.zip perms, n_shot + n_query ≤ p.2.length := by
    intro p hp
    rw [(hperm p hp).length_eq, List.length_range]
    exact hcount p hp
  have hrows := sampleRows_ok pool (n_shot + n_query) (draw.zip perms) hklen
  have hzip_len : (draw.zip perms).length = n_way := by
    rw [List.length_zip, hdraw_len, hperms_len, Nat.min_self]
  have hrows_len :
      ((draw.zip perms).map (sampledRow pool (n_shot + n_query))).length = n_way := by
    rw [List.length_map, hzip_len]
  have hshape : EpisodeShape (n_shot + n_query) dim
      ((draw.zip perms).map (sampledRow pool (n_shot + n_query))) := by
    intro row hrow
    rw [List.mem_map] at hrow
    obtain ⟨p, hp, rfl⟩ := hrow
    constructor
    · rw [sampledRow, List.length_map, chosenIdxs_length]
    · intro v hv
      rw [sampledRow, List.mem_map] at hv
      obtain ⟨j, hj, rfl⟩ := hv
      have hjperm : j ∈ p.2 := chosenIdxs_mem p.2 (n_shot + n_query) j (hklen p hp) hj
      have hjlt : j < (lookupPool pool p.1).length :=
        List.mem_range.mp ((hperm p hp).subset hjperm)
      rw [List.getD_eq_getElem _ _ hjlt]
      exact hdim p hp _ (List.getElem_mem hjlt)
  have hchoice : npChoiceNoReplace (poolKeys pool) n_way draw = .ok draw := by
    unfold npChoiceNoReplace
    rw [if_neg (Nat.not_lt.mpr hpool)]
  have htask : setClassificationTaskE pool n_way n_shot n_query draw perms swaps
      = .ok (randomSwapNumpy
          ((draw.zip perms).map (sampledRow pool (n_shot + n_query))) swaps) := by
    have hstep : setClassificationTaskE pool n_way n_shot n_query draw perms swaps
        = (match sampleRows pool (n_shot + n_query) (draw.zip perms) with
            | .error e => .error e
            | .ok rows => .ok (randomSwapNumpy rows swaps)) := by
      unfold setClassificationTaskE
      rw [hchoice]
    rw [hstep, hrows]
  have hswaps' : ∀ sw ∈ swaps,
      sw.1.1 < ((draw.zip perms).map (sampledRow pool (n_shot + n_query))).length ∧
      sw.1.2 < n_shot + n_query ∧
      sw.2.1 < ((draw.zip perms).map (sampledRow pool (n_shot + n_query))).length ∧
      sw.2.2 < n_shot + n_query := by
    intro sw hsw
    obtain ⟨h1, h2, h3, h4⟩ := hswaps sw hsw
    exact ⟨by rw [hrows_len]; exact h1,
      Nat.lt_of_lt_of_le h2 (Nat.le_add_right _ _),
      by rw [hrows_len]; exact h3,
      Nat.lt_of_lt_of_le h4 (Nat.le_add_right _ _)⟩
  refine ⟨htask, ?_, ?_, hdraw_nodup, hdraw_len, ?_⟩
  · rw [length_randomSwap, hrows_len]
  · exact shape_randomSwap _ swaps (n_shot + n_query) dim hshape hswaps'
  · intro p hp
    exact chosenIdxs_nodup p.2 (n_shot + n_query)
      ((hperm p hp).nodup_iff.mpr (List.nodup_range _)) (hklen p hp)

/-- Witness for C1: two classes of two 2-dimensional vectors each,
`n_way = 2`, `n_shot = n_query = 1`, one support swap. -/
theorem sampled_episode_shape_and_no_reuse_witness :
    (2 ≤ (poolKeys [(3, [[1, 2], [3, 4]]), (7, [[5, 6], [7, 8]])]).length) ∧
    ([7, 3] : List Nat).length = 2 ∧
    ([7, 3] : List Nat).Nodup ∧
    (∀ c ∈ ([7, 3] : List Nat),
      c ∈ poolKeys [(3, [[1, 2], [3, 4]]), (7, [[5, 6], [7, 8]])]) ∧
    ([[1, 0], [0, 1]] : List (List Nat)).length = 2 ∧
    (∀ p ∈ ([7, 3] : List Nat).zip [[1, 0], [0, 1]],
      p.2.Perm (List.range
        (lookupPool [(3, [[1, 2], [3, 4]]), (7, [[5, 6], [7, 8]])] p.1).length)) ∧
    (∀ p ∈ ([7, 3] : List Nat).zip [[1, 0], [0, 1]],
      1 + 1 ≤ (lookupPool [(3, [[1, 2], [3, 4]]), (7, [[5, 6], [7, 8]])] p.1).length) ∧
    (∀ p ∈ ([7, 3] : List Nat).zip [[1, 0], [0, 1]],
      ∀ v ∈ lookupPool [(3, [[1, 2], [3, 4]]), (7, [[5, 6], [7, 8]])] p.1,
        v.length = 2) ∧
    (∀ sw ∈ [((0, 0), (1, 0))],
      sw.1.1 < 2 ∧ sw.1.2 < 1 ∧ sw.2.1 < 2 ∧ sw.2.2 < 1) ∧
    (setClassificationTaskE [(3, [[1, 2], [3, 4]]), (7, [[5, 6], [7, 8]])] 2 1 1
          [7, 3] [[1, 0], [0, 1]] [((0, 0), (1, 0))]
        = .ok (randomSwapNumpy
            ((([7, 3] : List Nat).zip [[1, 0], [0, 1]]).map
              (sampledRow [(3, [[1, 2], [3, 4]]), (7, [[5, 6], [7, 8]])] (1 + 1)))
            [((0, 0), (1, 0))]) ∧
      (randomSwapNumpy
          ((([7, 3] : List Nat).zip [[1, 0], [0, 1]]).map
            (sampledRow [(3, [[1, 2], [3, 4]]), (7, [[5, 6], [7, 8]])] (1 + 1)))
          [((0, 0), (1, 0))]).length = 2 ∧
      (∀ row ∈ randomSwapNumpy
          ((([7, 3] : List Nat).zip [[1, 0], [0, 1]]).map
            (sampledRow [(3, [[1, 2], [3, 4]]), (7, [[5, 6], [7, 8]])] (1 + 1)))
          [((0, 0), (1, 0))], row.length = 1 + 1 ∧ ∀ v ∈ row, v.length = 2) ∧
      ([7, 3] : List Nat).Nodup ∧ ([7, 3] : List Nat).length = 2 ∧
      (∀ p ∈ ([7, 3] : List Nat).zip [[1, 0], [0, 1]],
        (chosenIdxs p.2 (1 + 1)).Nodup)) :=
  ⟨by decide, by decide, by decide, by decide, by decide, by decide, by decide,
    by decide, by decide,
    sampled_episode_shape_and_no_reuse [(3, [[1, 2], [3, 4]]), (7, [[5, 6], [7, 8]])]
      2 1 1 2 [7, 3] [[1, 0], [0, 1]] [((0, 0), (1, 0))]
      (by decide) (by decide) (by decide) (by decide) (by decide) (by decide)
      (by decide) (by decide) (by decide)⟩

/-- C2: the per-episode score of `_feature_evaluation` equals the fraction of
query predictions matching the ground-truth vector (class index `i` repeated
`n_query` times, in class-selection order, so position `j` carries class
`j / n_query`), expressed as a percentage. -/
theorem feature_eval_acc_matches_fraction (pred : List Nat) (n_way n_query : Nat)
    (h : pred.length = n_way * n_query) :
    featureEvalAcc pred n_way n_query
      = (((List.range (n_way * n_query)).countP
            (fun j => pred.getD j 0 == j / n_query) : ℕ) : ℚ)
          / ((n_way * n_query : ℕ) : ℚ) * 100 := by
  unfold featureEvalAcc
  dsimp only
  have hy : (npRepeat n_way n_query).length = n_way * n_query := npRepeat_length _ _
  rw [countP_zip_eq_countP_range pred _ (h.trans hy.symm), hy]
  have hcount : (List.range (n_way * n_query)).countP
        (fun j => pred.getD j 0 == (npRepeat n_way n_query).getD j 0)
      = (List.range (n_way * n_query)).countP
        (fun j => pred.getD j 0 == j / n_query) := by
    apply List.countP_congr
    intro j hj
    rw [npRepeat_getD n_way n_query j (List.mem_range.mp hj)]
  rw [hcount]

/-- Witness for C2 at `pred = [0, 0]`, `n_way = 2`, `n_query = 1`. -/
theorem feature_eval_acc_matches_fraction_witness :
    ([0, 0] : List Nat).length = 2 * 1 ∧
    featureEvalAcc [0, 0] 2 1
      = (((List.range (2 * 1)).countP
            (fun j => ([0, 0] : List Nat).getD j 0 == j / 1) : ℕ) : ℚ)
          / ((2 * 1 : ℕ) : ℚ) * 100 :=
  ⟨by decide, feature_eval_acc_matches_fraction [0, 0] 2 1 (by decide)⟩

/-- C5: when any episode of the `n_iter` loop fails, the run aborts with the
error and the result log is untouched: the one record of `results.txt` is
appended only after the full loop and the aggregation succeed. -/
theorem episode_failure_aborts_without_log (method : String) (ms : ModelState)
    (initParams : List ℚ) (fs : List Feature) (ls : List Nat)
    (classify : List ℚ → FeaturePool → Nat → Except EvalError ℚ) (n_iter : Nat)
    (params : List ℚ) (pool : FeaturePool)
    (hm : loadModelParams method ms initParams = .ok params)
    (hp : processFeatures fs ls = .ok pool)
    (hfail : ∃ i < n_iter, (classify params pool i).isOk = false) :
    (applyE method ms initParams fs ls classify n_iter).log = [] ∧
    (applyE method ms initParams fs ls classify n_iter).result.isOk = false := by
  obtain ⟨e, he⟩ := evalLoop_error_of_fail (classify params pool) n_iter hfail
  have hstep : applyE method ms initParams fs ls classify n_iter =
      (match evalLoop (classify params pool) n_iter with
        | .error e => ⟨.error e, []⟩
        | .ok accs => ⟨.ok (qmean accs), [(ms.epoch, accs)]⟩) := by
    unfold applyE
    rw [hm, hp]
  rw [hstep, he]
  exact ⟨rfl, rfl⟩

/-- Witness for C5: one episode, whose classification raises. -/
theorem episode_failure_aborts_without_log_witness :
    loadModelParams "protonet" ⟨[1], 3⟩ [0] = .ok [1] ∧
    processFeatures [[1]] [0] = .ok [(0, [[1]])] ∧
    (∃ i < 1,
      ((fun (_ : List ℚ) (_ : FeaturePool) (_ : Nat) =>
          (.error .insufficientInstancesError : Except EvalError ℚ)) [1] [(0, [[1]])] i).isOk
        = false) ∧
    ((applyE "protonet" ⟨[1], 3⟩ [0] [[1]] [0]
        (fun _ _ _ => .error .insufficientInstancesError) 1).log = [] ∧
      (applyE "protonet" ⟨[1], 3⟩ [0] [[1]] [0]
        (fun _ _ _ => .error .insufficientInstancesError) 1).result.isOk = false) :=
  ⟨by decide, by decide, ⟨0, Nat.zero_lt_one, rfl⟩,
    episode_failure_aborts_without_log "protonet" ⟨[1], 3⟩ [0] [[1]] [0]
      (fun _ _ _ => .error .insufficientInstancesError) 1 [1] [(0, [[1]])]
      (by decide) (by decide) ⟨0, Nat.zero_lt_one, rfl⟩⟩

/-- C3: the Label Noise Injector leaves every query-region cell (within-class
index at least `n_shot`) element-wise unchanged, and the output keeps the
shape of the input, for any number of swaps whose drawn positions are support
positions (index below `n_shot`, the only positions the draw can produce). -/
theorem random_swap_preserves_query_and_shape (z : List (List Feature))
    (swaps : List ((Nat × Nat) × (Nat × Nat))) (n_shot : Nat)
    (h : ∀ sw ∈ swaps, sw.1.2 < n_shot ∧ sw.2.2 < n_shot) :
    (randomSwapNumpy z swaps).length = z.length ∧
    (∀ c, ((randomSwapNumpy z swaps).getD c []).length = (z.getD c []).length) ∧
    (∀ c p, n_shot ≤ p → getCell (randomSwapNumpy z swaps) c p = getCell z c p) := by
  induction swaps generalizing z with
  | nil => exact ⟨rfl, fun _ => rfl, fun _ _ _ => rfl⟩
  | cons sw rest ih =>
    have hsw := h sw (List.mem_cons_self _ _)
    have hrest : ∀ s ∈ rest, s.1.2 < n_shot ∧ s.2.2 < n_shot :=
      fun s hs => h s (List.mem_cons_of_mem _ hs)
    have step : randomSwapNumpy z (sw :: rest) = randomSwapNumpy (swapOnce z sw) rest := rfl
    obtain ⟨ih1, ih2, ih3⟩ := ih (swapOnce z sw) hrest
    refine ⟨?_, ?_, ?_⟩
    · rw [step, ih1, length_swapOnce]
    · intro c
      rw [step, ih2 c, rowlen_swapOnce]
    · intro c p hq
      rw [step, ih3 c p hq]
      exact getCell_swapOnce_untouched z sw c p
        (fun hh => absurd hh.2 (Nat.ne_of_lt (Nat.lt_of_lt_of_le hsw.1 hq)))
        (fun hh => absurd hh.2 (Nat.ne_of_lt (Nat.lt_of_lt_of_le hsw.2 hq)))

/-- Witness for C3: a 2-class episode with one support and one query position
per class, one cross-class support swap. -/
theorem random_swap_preserves_query_and_shape_witness :
    (∀ sw ∈ [((0, 0), (1, 0))], sw.1.2 < 1 ∧ sw.2.2 < 1) ∧
    ((randomSwapNumpy [[[1], [2]], [[3], [4]]] [((0, 0), (1, 0))]).length
        = ([[[1], [2]], [[3], [4]]] : List (List Feature)).length ∧
      (∀ c, ((randomSwapNumpy [[[1], [2]], [[3], [4]]] [((0, 0), (1, 0))]).getD c []).length
          = (([[[1], [2]], [[3], [4]]] : List (List Feature)).getD c []).length) ∧
      (∀ c p, 1 ≤ p →
        getCell (randomSwapNumpy [[[1], [2]], [[3], [4]]] [((0, 0), (1, 0))]) c p
          = getCell [[[1], [2]], [[3], [4]]] c p)) :=
  ⟨by decide,
    random_swap_preserves_query_and_shape [[[1], [2]], [[3], [4]]]
      [((0, 0), (1, 0))] 1 (by decide)⟩

/-- C10: for `baseline` and `baseline++`, `_load_model` never loads
`model_state['state']`: the loaded parameters are the fresh construction-time
parameters, and the whole evaluation trace (including the result-log record,
which consumes only `model_state['epoch']`) is unchanged when only the
checkpoint's parameter set differs. -/
theorem baseline_ignores_checkpoint_state (method : String) (s1 s2 : List ℚ)
    (e : Nat) (initParams : List ℚ) (fs : List Feature) (ls : List Nat)
    (classify : List ℚ → FeaturePool → Nat → Except EvalError ℚ) (n_iter : Nat)
    (h : method = "baseline" ∨ method = "baseline++") :
    applyE method ⟨s1, e⟩ initParams fs ls classify n_iter
        = applyE method ⟨s2, e⟩ initParams fs ls classify n_iter ∧
    loadModelParams method ⟨s1, e⟩ initParams = .ok initParams := by
  rcases h with h | h <;> subst h <;> exact ⟨rfl, rfl⟩

/-- Witness for C10 at `method = "baseline"` with two different checkpoint
parameter sets. -/
theorem baseline_ignores_checkpoint_state_witness :
    ("baseline" = "baseline" ∨ "baseline" = "baseline++") ∧
    (applyE "baseline" ⟨[5], 2⟩ [3] [[1]] [0] (fun _ _ _ => .ok 50) 1
        = applyE "baseline" ⟨[9], 2⟩ [3] [[1]] [0] (fun _ _ _ => .ok 50) 1 ∧
      loadModelParams "baseline" ⟨[5], 2⟩ [3] = .ok [3]) :=
  ⟨Or.inl rfl,
    baseline_ignores_checkpoint_state "baseline" [5] [9] 2 [3] [[1]] [0]
      (fun _ _ _ => .ok 50) 1 (Or.inl rfl)⟩

end FewShotVision
